import Mathlib

/-!
Verification of the India boundary reconciliation pipeline of the
dataisbeautiful repository, shallowly embedded from
app/routers/geo.py, scripts/download_india_geojson.py and
scripts/download_india_geojson_with_pok.py.

Remote fetches and local file reads are modelled as explicit inputs:
a fetch is an Except String carrying either the parsed feature list
(the code folds a missing or null features entry into the empty list
via data.get("features") or []) or the exception message; a local file
is an Option of such a result, none meaning the file does not exist.
-/

namespace Geo

/-- Property value stored under a key of a feature's properties dict:
a JSON string or a JSON number, the only value shapes this pipeline
ever writes or reads under property keys. -/
inductive PVal where
  | str (s : String)
  | num (n : Int)
  deriving DecidableEq, Repr

/-- Properties dict: insertion-ordered association list with the key
update/insert behaviour of a Python dict. -/
abbrev Props := List (String × PVal)

/-- A linear ring: ordered list of [lng, lat] points. -/
abbrev Ring := List (List Int)

/-- One polygon coordinate-set: a list of linear rings. -/
abbrev PolyCoords := List Ring

/-- A geometry dict, by the shapes the pipeline distinguishes:
a Polygon or MultiPolygon with coordinates, a Polygon or MultiPolygon
dict whose coordinates key is missing (the code then takes the default
of geom.get("coordinates", [])), or a dict with some other or missing
type string (geom.get("type", "")). -/
inductive Geometry where
  | polygon (c : PolyCoords)
  | multiPolygon (c : List PolyCoords)
  | polygonNoCoords
  | multiPolygonNoCoords
  | otherType (t : String)
  deriving DecidableEq, Repr

/-- A GeoJSON feature: properties dict ([] models a missing, null or
empty dict, which the code collapses via f.get("properties") or {}) and
an optional geometry (none models a missing, null or empty geometry,
collapsed by the code's truthiness tests). -/
structure Feature where
  props : Props
  geometry : Option Geometry
  deriving DecidableEq, Repr

deriving instance DecidableEq for Except

/-- props.get(k): first binding of the key, as in a Python dict. -/
def lookupProp (ps : Props) (k : String) : Option PVal :=
  (ps.find? (fun p => p.1 = k)).map (fun p => p.2)

/-- props[k] = v: replace the binding in place if the key exists,
else append it, as a Python dict assignment. -/
def setProp (ps : Props) (k : String) (v : PVal) : Props :=
  if ps.any (fun p => p.1 = k) then
    ps.map (fun p => if p.1 = k then (k, v) else p)
  else ps ++ [(k, v)]

/-- Python truthiness of a property value: empty string and zero are
falsy. -/
def truthy : PVal → Bool
  | .str s => s ≠ ""
  | .num n => n ≠ 0

/-- Python `a or b` over two props.get results: the first operand if
it is present and truthy, else the second. -/
def pyOr (a b : Option PVal) : Option PVal :=
  match a with
  | some v => if truthy v then some v else b
  | none => b

/-- Python str() rendering of a property value, as used by the POK
append script's f-string. -/
def pvalStr : PVal → String
  | .str s => s
  | .num n => toString n

/-! ### Feature name normalizer (scripts/download_india_geojson.py) -/

/-- The alias_map of normalize_names. -/
def alias_map : List (String × String) :=
  [("Andaman and Nicobar Islands", "Andaman and Nicobar")]

/-- m.get(s, s): exact-match alias lookup with the raw name as
default. -/
def aliasLookup (m : List (String × String)) (s : String) : String :=
  match m.find? (fun p => p.1 = s) with
  | some p => p.2
  | none => s

/-- alias_map.get(raw_name, raw_name): the dict is keyed by strings,
so a numeric raw name never matches and passes through. -/
def canonicalOf (v : PVal) : PVal :=
  match v with
  | .str s => .str (aliasLookup alias_map s)
  | .num n => .num n

/-- Body of the normalize_names loop for one feature: resolve
props.get("NAME_1") or props.get("name"); if falsy, leave the feature
alone; else set both NAME_1 and name to the alias-mapped canonical. -/
def normalizeFeature (f : Feature) : Feature :=
  match pyOr (lookupProp f.props "NAME_1") (lookupProp f.props "name") with
  | none => f
  | some v =>
    if truthy v then
      { f with props :=
          setProp (setProp f.props "NAME_1" (canonicalOf v)) "name" (canonicalOf v) }
    else f

/-- normalize_names over the features of a collection. -/
def normalize_names (features : List Feature) : List Feature :=
  features.map normalizeFeature

/-! ### Geometry utilities -/

/-- Polygon coordinate-sets contributed by one optional geometry, as
computed by the repeated loop body (geo.py lines 210-221, 271-280,
300-311, 340-350): a falsy geometry contributes nothing; a Polygon
appends its coordinate-set (the default [] when coordinates is
missing); a MultiPolygon extends with its coordinate-sets (nothing
when coordinates is missing); any other type string contributes
nothing. -/
def geomSets : Option Geometry → List PolyCoords
  | none => []
  | some (.polygon c) => [c]
  | some (.multiPolygon cs) => cs
  | some .polygonNoCoords => [[]]
  | some .multiPolygonNoCoords => []
  | some (.otherType _) => []

/-- Coordinate-sets collected over a feature list's geometries. -/
def collectSets (fs : List Feature) : List PolyCoords :=
  fs.flatMap (fun f => geomSets f.geometry)

/-- The geom_type / geom_coords pattern: MultiPolygon when more than
one coordinate-set, else Polygon on the single set (callers guard
against the empty list). -/
def mkGeom (cs : List PolyCoords) : Geometry :=
  if 1 < cs.length then .multiPolygon cs else .polygon (cs.headD [])

/-- unionCoordinates (spec 4.1): the collect-then-classify pattern the
source inlines; an empty collection yields none and the caller emits
no feature. -/
def unionCoordinates (gs : List (Option Geometry)) : Option Geometry :=
  let cs := gs.flatMap geomSets
  if cs = [] then none else some (mkGeom cs)

/-! ### District aggregator (geo.py get_india_option_b_geojson, lines 195-230) -/

/-- The NAME_ALIASES dict of get_india_option_b_geojson. -/
def NAME_ALIASES : List (String × String) :=
  [("Andaman and Nicobar Islands", "Andaman and Nicobar")]

/-- props.get("st_nm") or props.get("name") or "": the raw state key
before alias mapping. -/
def resolveStNm (ps : Props) : PVal :=
  match pyOr (lookupProp ps "st_nm") (lookupProp ps "name") with
  | some v => if truthy v then v else .str ""
  | none => .str ""

/-- NAME_ALIASES.get(st_nm, st_nm): string keys only. -/
def applyAlias (v : PVal) : PVal :=
  match v with
  | .str s => .str (aliasLookup NAME_ALIASES s)
  | .num n => .num n

/-- The post-alias group key of a feature. -/
def stateKey (f : Feature) : PVal :=
  applyAlias (resolveStNm f.props)

/-- by_state[st_nm].append(f) on an insertion-ordered dict: append to
the existing group, else create a new group at the end. -/
def insertGroup (k : PVal) (f : Feature) :
    List (PVal × List Feature) → List (PVal × List Feature)
  | [] => [(k, [f])]
  | g :: rest =>
    if g.1 = k then (g.1, g.2 ++ [f]) :: rest else g :: insertGroup k f rest

/-- One iteration of the grouping loop: features whose resolved state
key is falsy are dropped from grouping. -/
def groupStep (acc : List (PVal × List Feature)) (f : Feature) :
    List (PVal × List Feature) :=
  if truthy (resolveStNm f.props) then insertGroup (stateKey f) f acc else acc

/-- The by_state defaultdict after the grouping loop, in dict insertion
order. -/
def groupByState (fs : List Feature) : List (PVal × List Feature) :=
  fs.foldl groupStep []

/-- Properties of a merged state feature: the group key under all
three canonical keys, in the source's literal order. -/
def stateProps (k : PVal) : Props :=
  [("name", k), ("NAME_1", k), ("st_nm", k)]

/-- Body of the per-state merge loop: collect every member geometry's
coordinate-sets; an empty collection produces no feature, else one
feature with the merged Polygon/MultiPolygon. -/
def mergeGroup (k : PVal) (fs : List Feature) : Option Feature :=
  let cs := collectSets fs
  if cs = [] then none
  else some { props := stateProps k, geometry := some (mkGeom cs) }

/-- The merged list of get_india_option_b_geojson before the overlay
steps: one feature per group that yielded coordinate-sets. -/
def aggregate_states (fs : List Feature) : List Feature :=
  (groupByState fs).filterMap (fun g => mergeGroup g.1 g.2)

/-! ### Splice merge (geo.py _merge_pok_into_jk, lines 240-284) -/

/-- (m.get("properties") or {}).get("name", ""). -/
def getNameProp (f : Feature) : PVal :=
  (lookupProp f.props "name").getD (.str "")

/-- Membership in jk_names = ("Jammu and Kashmir", "Jammu & Kashmir"). -/
def isJkFeature (m : Feature) : Bool :=
  getNameProp m = .str "Jammu and Kashmir" || getNameProp m = .str "Jammu & Kashmir"

/-- Index of the first feature satisfying p, as the enumerate/break
loop computes it. -/
def firstIdx (p : Feature → Bool) : List Feature → Option Nat
  | [] => none
  | m :: rest => if p m then some 0 else (firstIdx p rest).map (· + 1)

/-- Fallback element for list indexing at an index known to be in
range. -/
def emptyFeature : Feature := { props := [], geometry := none }

/-- Lines 262-284 applied to the found J&K feature: collect its own
coordinate-sets followed by the overlay's; reassign the geometry as
MultiPolygon when more than one set, Polygon on the single set when
exactly one, and leave it untouched when none. -/
def spliceJk (jk : Feature) (pokFeatures : List Feature) : Feature :=
  let cs := geomSets jk.geometry ++ collectSets pokFeatures
  if 1 < cs.length then { jk with geometry := some (.multiPolygon cs) }
  else if cs ≠ [] then { jk with geometry := some (.polygon (cs.headD [])) }
  else jk

/-- _merge_pok_into_jk with the POK fetch made explicit: a fetch/parse
error or an empty overlay leaves the collection unchanged, as does a
missing J&K feature; otherwise the first feature named by either J&K
variant has the overlay spliced into its geometry in place. -/
def merge_pok_into_jk (fetch : Except String (List Feature))
    (merged : List Feature) : List Feature :=
  match fetch with
  | .error _ => merged
  | .ok pokFeatures =>
    if pokFeatures = [] then merged
    else
      match firstIdx isJkFeature merged with
      | none => merged
      | some i => merged.set i (spliceJk (merged.getD i emptyFeature) pokFeatures)

/-! ### Replace merge (geo.py _replace_ladakh_with_full and
_fallback_ladakh_local, lines 287-361) -/

/-- Whether pat occurs at the head of s. -/
def matchesAt : List Char → List Char → Bool
  | [], _ => true
  | _ :: _, [] => false
  | p :: ps, c :: cs => p == c && matchesAt ps cs

/-- Whether pat occurs anywhere in s: the Python substring operator
`pat in s`. -/
def containsSeq (pat : List Char) : List Char → Bool
  | [] => matchesAt pat []
  | c :: rest => matchesAt pat (c :: rest) || containsSeq pat rest

/-- Python `pat in s` on strings. -/
def strContains (s pat : String) : Bool :=
  containsSeq pat.toList s.toList

/-- (props.get("district") or "").lower(): falsy values give "", and
lowercasing is per character (the district strings consumed here are
ASCII). Feature data with a truthy numeric district is outside this
model (it would raise on .lower() in the source and never occurs in
the sources consumed here). -/
def districtStr (ps : Props) : String :=
  match lookupProp ps "district" with
  | some (.str s) => ⟨s.data.map Char.toLower⟩
  | some (.num _) => ""
  | none => ""

/-- "leh" in district and "ladakh" in district. -/
def isLehLadakh (f : Feature) : Bool :=
  strContains (districtStr f.props) "leh" && strContains (districtStr f.props) "ladakh"

/-- The ladakh_coords scan of _replace_ladakh_with_full: only the
first feature whose district mentions leh and ladakh contributes (the
loop breaks after it), and a falsy geometry there contributes
nothing. -/
def ladakhRemoteCoords (features : List Feature) : List PolyCoords :=
  match features.find? isLehLadakh with
  | none => []
  | some f => geomSets f.geometry

/-- The freshly built Ladakh feature. -/
def ladakhFeature (cs : List PolyCoords) : Feature :=
  { props := stateProps (.str "Ladakh"), geometry := some (mkGeom cs) }

/-- merged[:] = [m for m in merged if name != "Ladakh"] followed by
merged.append(ladakh_feature). -/
def removeLadakhAndAppend (merged : List Feature) (cs : List PolyCoords) :
    List Feature :=
  merged.filter (fun m => decide (lookupProp m.props "name" ≠ some (.str "Ladakh")))
    ++ [ladakhFeature cs]

/-- _fallback_ladakh_local with the local file made explicit: a
missing file, a parse failure, an empty feature list or an empty
coordinate collection all leave the collection unchanged; otherwise
remove-and-append with every local feature's coordinate-sets. -/
def fallback_ladakh_local (localFile : Option (Except String (List Feature)))
    (merged : List Feature) : List Feature :=
  match localFile with
  | none => merged
  | some (.error _) => merged
  | some (.ok ladakhFeatures) =>
    if ladakhFeatures = [] then merged
    else
      let cs := collectSets ladakhFeatures
      if cs = [] then merged
      else removeLadakhAndAppend merged cs

/-- _replace_ladakh_with_full with both sources explicit: the remote
india-in-data source is tried first; a fetch error or an empty
coordinate scan falls back to the bundled local file. -/
def replace_ladakh_with_full (remote : Except String (List Feature))
    (localFile : Option (Except String (List Feature)))
    (merged : List Feature) : List Feature :=
  match remote with
  | .error _ => fallback_ladakh_local localFile merged
  | .ok features =>
    let cs := ladakhRemoteCoords features
    if cs = [] then fallback_ladakh_local localFile merged
    else removeLadakhAndAppend merged cs

/-- The assembled feature list of get_india_option_b_geojson for a
successfully fetched base: aggregate districts to states, splice POK
into J&K, then replace Ladakh. -/
def option_b_features (base : List Feature) (pok : Except String (List Feature))
    (ladakhRemote : Except String (List Feature))
    (ladakhLocal : Option (Except String (List Feature))) : List Feature :=
  replace_ladakh_with_full ladakhRemote ladakhLocal
    (merge_pok_into_jk pok (aggregate_states base))

/-! ### Append merge (scripts/download_india_geojson_with_pok.py main,
lines 41-62) -/

/-- name = f"POK - {prov}" + (f" ({dist})" if dist else ""), with
prov = props.get("PROVINCE", "POK") and dist = props.get("DISTRICT", "")
(defaults apply only when the key is missing). -/
def pokName (ps : Props) : String :=
  let prov := (lookupProp ps "PROVINCE").getD (.str "POK")
  let dist := (lookupProp ps "DISTRICT").getD (.str "")
  "POK - " ++ pvalStr prov ++ (if truthy dist then " (" ++ pvalStr dist ++ ")" else "")

/-- The synthesized disputed-territory properties, in the source's
literal order. -/
def pokDisputedProps (name : String) : Props :=
  [("ID_0", .num 105), ("ISO", .str "IND"), ("NAME_0", .str "India"),
   ("NAME_1", .str name), ("name", .str name), ("TYPE_1", .str "Disputed"),
   ("ENGTYPE_1", .str "Disputed Territory")]

/-- One overlay feature of the append loop: skipped when its geometry
is falsy, else rebuilt with synthesized properties and the original
geometry. -/
def appendPokFeature (f : Feature) : Option Feature :=
  match f.geometry with
  | none => none
  | some g => some { props := pokDisputedProps (pokName f.props), geometry := some g }

/-- The POK append step of the script's main: a fetch/parse failure
leaves the base unchanged (the whole step sits in one try/except);
otherwise every overlay feature with a truthy geometry is appended. -/
def append_pok_merge (geojson : List Feature)
    (pok : Except String (List Feature)) : List Feature :=
  match pok with
  | .error _ => geojson
  | .ok pokFeatures => geojson ++ pokFeatures.filterMap appendPokFeature

/-! ### Source selector (geo.py get_india_states_geojson, lines
147-176) -/

/-- The failure conditions the endpoint can surface, with their
detail strings. -/
inductive GeoError where
  | http502 (detail : String)
  | http404 (detail : String)
  deriving DecidableEq, Repr

/-- The second try block of get_india_states_geojson: a second remote
fetch whose exception surfaces as a 502 carrying the error, while an
empty result falls through to the final 404 with remediation text. -/
def secondAttempt (remoteB : Except String (List Feature)) :
    Except GeoError (List Feature) :=
  match remoteB with
  | .ok d =>
    if d ≠ [] then .ok d
    else .error (.http404 "India GeoJSON not found. Run: py scripts/download_india_geojson.py")
  | .error e => .error (.http502 ("India GeoJSON unavailable: " ++ e))

/-- get_india_states_geojson with its three I/O operations explicit:
the local file when it exists (none models a missing file), else a
first remote fetch; any exception in that block is swallowed and a
non-empty result is returned as-is; otherwise the second attempt
decides the outcome. -/
def get_india_states_geojson (localFile : Option (Except String (List Feature)))
    (remoteA remoteB : Except String (List Feature)) :
    Except GeoError (List Feature) :=
  let firstData : Option (List Feature) :=
    match localFile with
    | some (.ok d) => some d
    | some (.error _) => none
    | none => match remoteA with | .ok d => some d | .error _ => none
  match firstData with
  | some d => if d ≠ [] then .ok d else secondAttempt remoteB
  | none => secondAttempt remoteB

/-- Modelled from the claim wording of C2, for comparison with
replace_ladakh_with_full: a replace step that tries a primary remote
source, then a secondary remote source, then the bundled local file,
using the first that yields non-empty geometry. The source defines no
such secondary remote source. -/
def replaceLadakhClaimOrder (primary secondary : Except String (List Feature))
    (localFile : Option (Except String (List Feature)))
    (merged : List Feature) : List Feature :=
  let fromRemote : Except String (List Feature) → List PolyCoords := fun r =>
    match r with
    | .error _ => []
    | .ok features => ladakhRemoteCoords features
  if fromRemote primary ≠ [] then removeLadakhAndAppend merged (fromRemote primary)
  else if fromRemote secondary ≠ [] then removeLadakhAndAppend merged (fromRemote secondary)
  else fallback_ladakh_local localFile merged

/-- Members of all groups, in group order. -/
def flatG (gs : List (PVal × List Feature)) : List Feature :=
  gs.flatMap (fun g => g.2)

/-- One step of first-appearance-order deduplication. -/
def dedupStep (acc : List PVal) (k : PVal) : List PVal :=
  if k ∈ acc then acc else acc ++ [k]

/-- First-appearance-order deduplication of a key list: the key order
a Python dict built by repeated indexing exhibits. -/
def dedupKeys (ks : List PVal) : List PVal :=
  ks.foldl dedupStep []

/-! ### Helper lemmas -/

/-- A non-empty collection passed to the geom_type / geom_coords
pattern round-trips its coordinate-sets. -/
theorem geomSets_mkGeom : ∀ (cs : List PolyCoords), cs ≠ [] →
    geomSets (some (mkGeom cs)) = cs
  | [], h => absurd rfl h
  | [c], _ => by simp [mkGeom, geomSets]
  | c1 :: c2 :: t, _ => by
    have h2 : 1 < (c1 :: c2 :: t).length := by
      simp only [List.length_cons]
      omega
    simp [mkGeom, h2, geomSets]

/-- Splicing never changes the target's properties. -/
theorem spliceJk_props (jk : Feature) (pf : List Feature) :
    (spliceJk jk pf).props = jk.props := by
  simp only [spliceJk]
  by_cases h1 : 1 < (geomSets jk.geometry ++ collectSets pf).length
  · rw [if_pos h1]
  · rw [if_neg h1]
    by_cases h2 : geomSets jk.geometry ++ collectSets pf = []
    · rw [if_neg (not_not_intro h2)]
    · rw [if_pos h2]

/-- Coordinate-sets of the spliced target: its own sets followed by
the overlay's, in every branch of the reassignment. -/
theorem spliceJk_sets (jk : Feature) (pf : List Feature) :
    geomSets (spliceJk jk pf).geometry
      = geomSets jk.geometry ++ collectSets pf := by
  simp only [spliceJk]
  by_cases h1 : 1 < (geomSets jk.geometry ++ collectSets pf).length
  · rw [if_pos h1]
    rfl
  · rw [if_neg h1]
    by_cases h2 : geomSets jk.geometry ++ collectSets pf = []
    · rw [if_neg (not_not_intro h2)]
      rw [h2]
      exact (List.append_eq_nil.mp h2).1
    · rw [if_pos h2]
      rcases hcs : geomSets jk.geometry ++ collectSets pf with _ | ⟨c, t⟩
      · exact absurd hcs h2
      · rcases t with _ | ⟨c2, t2⟩
        · simp [geomSets, hcs]
        · exfalso
          rw [hcs] at h1
          simp only [List.length_cons] at h1
          omega

/-- Splicing never changes whether the J&K matcher accepts the
feature. -/
theorem isJk_spliceJk (jk : Feature) (pf : List Feature) :
    isJkFeature (spliceJk jk pf) = isJkFeature jk := by
  unfold isJkFeature getNameProp
  rw [spliceJk_props]

/-- A found first index is in range. -/
theorem firstIdx_lt (p : Feature → Bool) :
    ∀ (l : List Feature) (i : Nat), firstIdx p l = some i → i < l.length
  | [], _, h => by simp [firstIdx] at h
  | m :: rest, i, h => by
    by_cases hp : p m
    · simp [firstIdx, hp] at h
      simp only [List.length_cons]
      omega
    · simp [firstIdx, hp] at h
      obtain ⟨j, hj, hji⟩ := h
      have := firstIdx_lt p rest j hj
      simp only [List.length_cons]
      omega

/-- No first index exists exactly when no element matches. -/
theorem firstIdx_eq_none (p : Feature → Bool) :
    ∀ (l : List Feature), firstIdx p l = none ↔ ∀ m ∈ l, p m = false
  | [] => by simp [firstIdx]
  | m :: rest => by
    by_cases hp : p m
    · simp [firstIdx, hp]
    · simp [firstIdx, hp, firstIdx_eq_none p rest]

/-- Reading back the element just written. -/
theorem getD_set_self {α : Type} (l : List α) (i : Nat) (x d : α)
    (h : i < l.length) : (l.set i x).getD i d = x := by
  rw [List.getD_eq_getElem?_getD, List.getElem?_set_self h]
  rfl

/-- Writing one index leaves every other read unchanged. -/
theorem getD_set_ne {α : Type} (l : List α) (i j : Nat) (x d : α)
    (h : i ≠ j) : (l.set i x).getD j d = l.getD j d := by
  rw [List.getD_eq_getElem?_getD, List.getD_eq_getElem?_getD,
    List.getElem?_set_ne h]

/-- Writing back the value read at an in-range index is the
identity. -/
theorem set_getD_self {α : Type} :
    ∀ (l : List α) (i : Nat) (d : α), i < l.length →
      l.set i (l.getD i d) = l
  | [], i, _, h => by simp at h
  | _ :: _, 0, _, _ => by simp
  | a :: l, i + 1, d, h => by
    simp only [List.getD_cons_succ, List.set]
    rw [set_getD_self l i d (by simpa using h)]

/-- getD commutes with map when the fallback is mapped too. -/
theorem getD_map {α β : Type} (f : α → β) :
    ∀ (l : List α) (i : Nat) (d : α),
      (l.map f).getD i (f d) = f (l.getD i d)
  | [], _, _ => rfl
  | _ :: _, 0, _ => rfl
  | _ :: l, i + 1, d => by
    simp only [List.map_cons, List.getD_cons_succ]
    exact getD_map f l i d

/-- Overwriting an index with an element the predicate treats the same
leaves the first matching index unchanged. -/
theorem firstIdx_set_congr (p : Feature → Bool) :
    ∀ (l : List Feature) (i : Nat) (x : Feature),
      p x = p (l.getD i emptyFeature) →
      firstIdx p (l.set i x) = firstIdx p l
  | [], _, _, _ => by simp
  | m :: rest, 0, x, h => by
    simp only [List.getD_cons_zero] at h
    simp [firstIdx, List.set, h]
  | m :: rest, i + 1, x, h => by
    simp only [List.getD_cons_succ] at h
    by_cases hm : p m
    · simp [firstIdx, List.set, hm]
    · simp [firstIdx, List.set, hm,
        firstIdx_set_congr p rest i x h]

/-- The splice step preserves the collection's length. -/
theorem mergePok_length (fetch : Except String (List Feature))
    (merged : List Feature) :
    (merge_pok_into_jk fetch merged).length = merged.length := by
  unfold merge_pok_into_jk
  rcases fetch with e | pf
  · rfl
  · by_cases hpf : pf = []
    · simp [hpf]
    · dsimp only
      rw [if_neg hpf]
      rcases firstIdx isJkFeature merged with _ | i
      · rfl
      · show (merged.set i _).length = merged.length
        rw [List.length_set]

/-- Coordinate-sets of the spliced target after one merge
application. -/
theorem mergePok_sets (pf merged : List Feature) (i : Nat)
    (hi : firstIdx isJkFeature merged = some i) (hpf : pf ≠ []) :
    geomSets ((merge_pok_into_jk (.ok pf) merged).getD i emptyFeature).geometry
      = geomSets ((merged.getD i emptyFeature).geometry) ++ collectSets pf := by
  unfold merge_pok_into_jk
  dsimp only
  rw [if_neg hpf, hi]
  show geomSets
      ((merged.set i (spliceJk (merged.getD i emptyFeature) pf)).getD i
        emptyFeature).geometry = _
  rw [getD_set_self _ _ _ _ (firstIdx_lt _ _ _ hi)]
  exact spliceJk_sets _ _

/-- One merge application does not move the first J&K index. -/
theorem mergePok_firstIdx (fetch : Except String (List Feature))
    (merged : List Feature) :
    firstIdx isJkFeature (merge_pok_into_jk fetch merged)
      = firstIdx isJkFeature merged := by
  unfold merge_pok_into_jk
  rcases fetch with e | pf
  · rfl
  · by_cases hpf : pf = []
    · simp [hpf]
    · dsimp only
      rw [if_neg hpf]
      rcases h : firstIdx isJkFeature merged with _ | i
      · exact h
      · show firstIdx isJkFeature
            (merged.set i (spliceJk (merged.getD i emptyFeature) pf)) = some i
        rw [firstIdx_set_congr isJkFeature merged i _ (isJk_spliceJk _ _)]
        exact h

/-- The splice step preserves the whole list of feature names. -/
theorem mergePok_names (fetch : Except String (List Feature))
    (merged : List Feature) :
    (merge_pok_into_jk fetch merged).map getNameProp
      = merged.map getNameProp := by
  unfold merge_pok_into_jk
  rcases fetch with e | pf
  · rfl
  · by_cases hpf : pf = []
    · simp [hpf]
    · dsimp only
      rw [if_neg hpf]
      rcases h : firstIdx isJkFeature merged with _ | i
      · rfl
      · show (merged.set i (spliceJk (merged.getD i emptyFeature) pf)).map
            getNameProp = merged.map getNameProp
        rw [List.map_set]
        have hn : getNameProp (spliceJk (merged.getD i emptyFeature) pf)
            = getNameProp (merged.getD i emptyFeature) := by
          unfold getNameProp
          rw [spliceJk_props]
        rw [hn, ← getD_map getNameProp merged i emptyFeature,
          set_getD_self _ _ _ (by simpa using firstIdx_lt _ _ _ h)]

/-- Inserting into a group dict touches the key list exactly as one
dedupStep. -/
theorem insertGroup_keys (k : PVal) (f : Feature) :
    ∀ (gs : List (PVal × List Feature)),
      (insertGroup k f gs).map (fun g => g.1)
        = dedupStep (gs.map (fun g => g.1)) k
  | [] => by simp [insertGroup, dedupStep]
  | g :: rest => by
    by_cases hg : g.1 = k
    · simp [insertGroup, hg, dedupStep]
    · have hne : ¬k = g.1 := fun h => hg h.symm
      simp only [insertGroup, if_neg hg, List.map_cons,
        insertGroup_keys k f rest, dedupStep, List.mem_cons]
      by_cases hk : k ∈ rest.map (fun g => g.1)
      · simp [hk, hne]
      · simp [hk, hne]

/-- dedupStep preserves Nodup of the accumulator. -/
theorem dedupStep_nodup (acc : List PVal) (k : PVal) (h : acc.Nodup) :
    (dedupStep acc k).Nodup := by
  unfold dedupStep
  by_cases hk : k ∈ acc
  · rw [if_pos hk]
    exact h
  · rw [if_neg hk]
    refine List.Nodup.append h (List.nodup_singleton k) ?_
    intro a ha hb
    rw [List.mem_singleton] at hb
    subst hb
    exact hk ha

/-- Folding dedupStep preserves Nodup of the accumulator. -/
theorem foldl_dedupStep_nodup :
    ∀ (ks : List PVal) (acc : List PVal), acc.Nodup →
      (ks.foldl dedupStep acc).Nodup
  | [], _, h => h
  | k :: ks, acc, h =>
    foldl_dedupStep_nodup ks (dedupStep acc k) (dedupStep_nodup acc k h)

/-- Membership after folding dedupStep. -/
theorem mem_foldl_dedupStep :
    ∀ (ks : List PVal) (acc : List PVal) (a : PVal),
      a ∈ ks.foldl dedupStep acc ↔ a ∈ acc ∨ a ∈ ks
  | [], acc, a => by simp
  | k :: ks, acc, a => by
    rw [List.foldl_cons, mem_foldl_dedupStep ks (dedupStep acc k) a]
    unfold dedupStep
    by_cases hk : k ∈ acc
    · rw [if_pos hk]
      simp only [List.mem_cons]
      constructor
      · rintro (h | h)
        · exact Or.inl h
        · exact Or.inr (Or.inr h)
      · rintro (h | h | h)
        · exact Or.inl h
        · exact Or.inl (h ▸ hk)
        · exact Or.inr h
    · rw [if_neg hk]
      simp only [List.mem_append, List.mem_singleton, List.mem_cons]
      tauto

/-- The grouping fold computes its key list by folding dedupStep over
the truthy features' state keys. -/
theorem foldl_groupStep_keys :
    ∀ (fs : List Feature) (acc : List (PVal × List Feature)),
      (∀ f ∈ fs, truthy (resolveStNm f.props) = true) →
      (fs.foldl groupStep acc).map (fun g => g.1)
        = (fs.map stateKey).foldl dedupStep (acc.map (fun g => g.1))
  | [], _, _ => rfl
  | f :: fs, acc, h => by
    have hf := h f (List.mem_cons_self f fs)
    simp only [List.foldl_cons, List.map_cons]
    rw [foldl_groupStep_keys fs (groupStep acc f)
      (fun g hg => h g (List.mem_cons_of_mem f hg))]
    unfold groupStep
    rw [if_pos hf, insertGroup_keys]

/-- The group keys, as a dict preserves them, are Nodup. -/
theorem groupByState_keys_nodup (fs : List Feature) :
    ((groupByState fs).map (fun g => g.1)).Nodup := by
  unfold groupByState
  suffices h : ∀ (l : List Feature) (acc : List (PVal × List Feature)),
      (acc.map (fun g => g.1)).Nodup →
      ((l.foldl groupStep acc).map (fun g => g.1)).Nodup by
    exact h fs [] (by simp)
  intro l
  induction l with
  | nil => exact fun acc h => h
  | cons f l ih =>
    intro acc h
    rw [List.foldl_cons]
    apply ih
    unfold groupStep
    by_cases ht : truthy (resolveStNm f.props)
    · rw [if_pos ht, insertGroup_keys]
      exact dedupStep_nodup _ _ h
    · rw [if_neg ht]
      exact h

/-- Inserting a member permutes the flattened groups by consing it. -/
theorem insertGroup_flat_perm (k : PVal) (f : Feature) :
    ∀ (gs : List (PVal × List Feature)),
      (flatG (insertGroup k f gs)).Perm (f :: flatG gs)
  | [] => by simp [insertGroup, flatG]
  | g :: rest => by
    by_cases hg : g.1 = k
    · simp only [insertGroup, if_pos hg, flatG, List.flatMap_cons]
      rw [List.append_assoc]
      exact List.perm_middle
    · simp only [insertGroup, if_neg hg, flatG, List.flatMap_cons]
      refine ((insertGroup_flat_perm k f rest).append_left g.2).trans ?_
      exact List.perm_middle

/-- Folding the grouping step appends exactly the truthy-keyed
features, up to permutation. -/
theorem foldl_groupStep_flat_perm :
    ∀ (fs : List Feature) (acc : List (PVal × List Feature)),
      (∀ f ∈ fs, truthy (resolveStNm f.props) = true) →
      (flatG (fs.foldl groupStep acc)).Perm (flatG acc ++ fs)
  | [], acc, _ => by simp
  | f :: fs, acc, h => by
    have hf := h f (List.mem_cons_self f fs)
    rw [List.foldl_cons]
    refine (foldl_groupStep_flat_perm fs (groupStep acc f)
      (fun g hg => h g (List.mem_cons_of_mem f hg))).trans ?_
    have hstep : flatG (groupStep acc f) = flatG (insertGroup (stateKey f) f acc) := by
      unfold groupStep
      rw [if_pos hf]
    rw [hstep]
    refine ((insertGroup_flat_perm (stateKey f) f acc).append_right fs).trans ?_
    exact List.perm_middle.symm

/-- Every group produced by the fold is non-empty and its members all
come from the input (stated via a predicate the members satisfy). -/
theorem foldl_groupStep_members (Q : Feature → Prop) :
    ∀ (fs : List Feature) (acc : List (PVal × List Feature)),
      (∀ f ∈ fs, Q f) → (∀ g ∈ acc, ∀ x ∈ g.2, Q x) →
      ∀ g ∈ fs.foldl groupStep acc, ∀ x ∈ g.2, Q x
  | [], _, _, hacc => hacc
  | f :: fs, acc, h, hacc => by
    rw [List.foldl_cons]
    refine foldl_groupStep_members Q fs (groupStep acc f)
      (fun g hg => h g (List.mem_cons_of_mem f hg)) ?_
    unfold groupStep
    by_cases ht : truthy (resolveStNm f.props)
    · rw [if_pos ht]
      have hQf := h f (List.mem_cons_self f fs)
      clear h
      induction acc with
      | nil =>
        intro g hg x hx
        simp [insertGroup] at hg
        subst hg
        simp at hx
        subst hx
        exact hQf
      | cons a acc ih =>
        intro g hg x hx
        simp only [insertGroup] at hg
        by_cases ha : a.1 = stateKey f
        · rw [if_pos ha] at hg
          rcases List.mem_cons.mp hg with hxx | hxx
          · subst hxx
            simp only [List.mem_append, List.mem_singleton] at hx
            rcases hx with hx | hx
            · exact hacc a (List.mem_cons_self a acc) x hx
            · subst hx
              exact hQf
          · exact hacc g (List.mem_cons_of_mem a hxx) x hx
        · rw [if_neg ha] at hg
          rcases List.mem_cons.mp hg with hxx | hxx
          · subst hxx
            exact hacc g (by exact List.mem_cons_self g acc) x hx
          · exact ih (fun g hg => hacc g (List.mem_cons_of_mem a hg)) g hxx x hx
    · rw [if_neg ht]
      exact hacc

/-- Every group in the fold result has at least one member. -/
theorem foldl_groupStep_ne_nil :
    ∀ (fs : List Feature) (acc : List (PVal × List Feature)),
      (∀ g ∈ acc, g.2 ≠ []) →
      ∀ g ∈ fs.foldl groupStep acc, g.2 ≠ []
  | [], _, hacc => hacc
  | f :: fs, acc, hacc => by
    rw [List.foldl_cons]
    refine foldl_groupStep_ne_nil fs (groupStep acc f) ?_
    unfold groupStep
    by_cases ht : truthy (resolveStNm f.props)
    · rw [if_pos ht]
      induction acc with
      | nil =>
        intro g hg
        simp [insertGroup] at hg
        subst hg
        simp
      | cons a acc ih =>
        intro g hg
        simp only [insertGroup] at hg
        by_cases ha : a.1 = stateKey f
        · rw [if_pos ha] at hg
          rcases List.mem_cons.mp hg with hxx | hxx
          · subst hxx
            simp
          · exact hacc g (List.mem_cons_of_mem a hxx)
        · rw [if_neg ha] at hg
          rcases List.mem_cons.mp hg with hxx | hxx
          · subst hxx
            exact hacc g (List.mem_cons_self g acc)
          · exact ih (fun g hg => hacc g (List.mem_cons_of_mem a hg)) g hxx
    · rw [if_neg ht]
      exact hacc

/-- filterMap collapses to map when every element produces a value. -/
theorem filterMap_eq_map_of_some {α β : Type} (F : α → Option β) (G : α → β) :
    ∀ (l : List α), (∀ g ∈ l, F g = some (G g)) → l.filterMap F = l.map G
  | [], _ => rfl
  | a :: l, h => by
    rw [List.filterMap_cons, h a (List.mem_cons_self a l), List.map_cons,
      filterMap_eq_map_of_some F G l (fun g hg => h g (List.mem_cons_of_mem a hg))]

/-- flatMap respects pointwise equality on members. -/
theorem flatMap_congr_mem {α β : Type} (F G : α → List β) :
    ∀ (l : List α), (∀ x ∈ l, F x = G x) → l.flatMap F = l.flatMap G
  | [], _ => rfl
  | a :: l, h => by
    rw [List.flatMap_cons, List.flatMap_cons, h a (List.mem_cons_self a l),
      flatMap_congr_mem F G l (fun x hx => h x (List.mem_cons_of_mem a hx))]

/-- flatMap over flattened groups equals grouped flatMap. -/
theorem flatMap_flatG {β : Type} (F : Feature → List β) :
    ∀ (gs : List (PVal × List Feature)),
      (flatG gs).flatMap F = gs.flatMap (fun g => g.2.flatMap F)
  | [] => rfl
  | g :: gs => by
    rw [flatG, List.flatMap_cons, List.flatMap_append, List.flatMap_cons,
      ← flatG, flatMap_flatG F gs]

/-- A member with a non-empty contribution makes the collection
non-empty. -/
theorem collectSets_ne_nil {fs : List Feature} {f : Feature}
    (hf : f ∈ fs) (h : geomSets f.geometry ≠ []) : collectSets fs ≠ [] := by
  unfold collectSets
  intro hnil
  exact h (List.flatMap_eq_nil_iff.mp hnil f hf)

/-- Names survive filterMap as a sublist of the group keys. -/
theorem map_filterMap_sublist {α β γ : Type} (F : α → Option β)
    (nameF : β → γ) (keyF : α → γ)
    (h : ∀ a y, F a = some y → nameF y = keyF a) :
    ∀ (l : List α), ((l.filterMap F).map nameF).Sublist (l.map keyF)
  | [] => List.Sublist.refl []
  | a :: l => by
    rw [List.filterMap_cons, List.map_cons]
    rcases hFa : F a with _ | y
    · exact (map_filterMap_sublist F nameF keyF h l).cons (keyF a)
    · rw [List.map_cons, h a y hFa]
      exact (map_filterMap_sublist F nameF keyF h l).cons₂ (keyF a)

/-- Looking up the key just replaced in place. -/
theorem lookupProp_replace_self :
    ∀ (ps : Props) (k : String) (v : PVal),
      ps.any (fun p => p.1 = k) = true →
      lookupProp (ps.map (fun p => if p.1 = k then (k, v) else p)) k = some v
  | [], _, _, h => by simp at h
  | p :: ps, k, v, h => by
    by_cases hp : p.1 = k
    · simp [lookupProp, List.find?, hp]
    · have hps : ps.any (fun p => p.1 = k) = true := by
        simp only [List.any_cons] at h
        rcases Bool.or_eq_true_iff.mp h with h1 | h1
        · exact absurd (of_decide_eq_true h1) hp
        · exact h1
      simp only [List.map_cons, if_neg hp, lookupProp, List.find?]
      rw [decide_eq_false hp]
      exact lookupProp_replace_self ps k v hps

/-- Looking up the key just appended at the end. -/
theorem lookupProp_append_self :
    ∀ (ps : Props) (k : String) (v : PVal),
      ps.any (fun p => p.1 = k) = false →
      lookupProp (ps ++ [(k, v)]) k = some v
  | [], k, v, _ => by simp [lookupProp, List.find?]
  | p :: ps, k, v, h => by
    simp only [List.any_cons, Bool.or_eq_false_iff] at h
    have hp : ¬p.1 = k := by
      intro hh
      simp [hh] at h
    simp only [List.cons_append, lookupProp, List.find?]
    rw [decide_eq_false hp]
    exact lookupProp_append_self ps k v h.2

/-- Python dict assignment followed by lookup of the same key. -/
theorem lookupProp_setProp_self (ps : Props) (k : String) (v : PVal) :
    lookupProp (setProp ps k v) k = some v := by
  unfold setProp
  by_cases h : ps.any (fun p => p.1 = k)
  · rw [if_pos h]
    exact lookupProp_replace_self ps k v h
  · rw [if_neg h]
    exact lookupProp_append_self ps k v (Bool.not_eq_true _ ▸ h)

/-- Replacing one key in place does not disturb other lookups. -/
theorem lookupProp_replace_ne :
    ∀ (ps : Props) (k k' : String) (v : PVal), k' ≠ k →
      lookupProp (ps.map (fun p => if p.1 = k then (k, v) else p)) k'
        = lookupProp ps k'
  | [], _, _, _, _ => rfl
  | p :: ps, k, k', v, h => by
    by_cases hp : p.1 = k
    · simp only [List.map_cons, if_pos hp, lookupProp, List.find?]
      rw [decide_eq_false (fun hh => h hh.symm), decide_eq_false (fun hh => h (hp ▸ hh).symm)]
      exact lookupProp_replace_ne ps k k' v h
    · simp only [List.map_cons, if_neg hp, lookupProp, List.find?]
      by_cases hk : p.1 = k'
      · rw [decide_eq_true hk]
      · rw [decide_eq_false hk]
        exact lookupProp_replace_ne ps k k' v h

/-- Appending a new key does not disturb other lookups. -/
theorem lookupProp_append_ne :
    ∀ (ps : Props) (k k' : String) (v : PVal), k' ≠ k →
      lookupProp (ps ++ [(k, v)]) k' = lookupProp ps k'
  | [], k, k', v, h => by
    simp only [List.nil_append, lookupProp, List.find?]
    rw [decide_eq_false (fun hh => h hh.symm)]
  | p :: ps, k, k', v, h => by
    simp only [List.cons_append, lookupProp, List.find?]
    by_cases hk : p.1 = k'
    · rw [decide_eq_true hk]
    · rw [decide_eq_false hk]
      exact lookupProp_append_ne ps k k' v h

/-- Python dict assignment does not disturb other lookups. -/
theorem lookupProp_setProp_ne (ps : Props) (k k' : String) (v : PVal)
    (h : k' ≠ k) :
    lookupProp (setProp ps k v) k' = lookupProp ps k' := by
  unfold setProp
  by_cases hany : ps.any (fun p => p.1 = k)
  · rw [if_pos hany]
    exact lookupProp_replace_ne ps k k' v h
  · rw [if_neg hany]
    exact lookupProp_append_ne ps k k' v h

/-- Merged state features carry their group key under "name". -/
theorem getNameProp_stateProps (k : PVal) (g : Option Geometry) :
    getNameProp ⟨stateProps k, g⟩ = k := by
  simp [getNameProp, stateProps, lookupProp, List.find?]

/-! ### Claims -/

/-- Claim C3 (corrected): for every input Feature, normalize_names
resolves the raw name with the precedence NAME_1 over name only
(falsy values skipped by the Python `or`); st_nm and hc-key are never
consulted, so a feature carrying only st_nm is left unmodified; when a
truthy raw name resolves, the alias table is applied by exact string
match and both NAME_1 and name are set to the canonical value while
the geometry is untouched; a feature with no truthy NAME_1 or name is
left unmodified rather than dropped. -/
theorem normalize_names_precedence (f : Feature) :
    (∀ v, pyOr (lookupProp f.props "NAME_1") (lookupProp f.props "name") = some v →
      truthy v = true →
      lookupProp (normalizeFeature f).props "NAME_1" = some (canonicalOf v)
      ∧ lookupProp (normalizeFeature f).props "name" = some (canonicalOf v)
      ∧ (normalizeFeature f).geometry = f.geometry)
    ∧ (pyOr (lookupProp f.props "NAME_1") (lookupProp f.props "name") = none →
      normalizeFeature f = f)
    ∧ (∀ w, pyOr (lookupProp f.props "NAME_1") (lookupProp f.props "name") = some w →
      truthy w = false → normalizeFeature f = f)
    ∧ (lookupProp f.props "NAME_1" = none → lookupProp f.props "name" = none →
      normalizeFeature f = f)
    ∧ normalize_names [f] = [normalizeFeature f] := by
  refine ⟨?_, ?_, ?_, ?_, rfl⟩
  · intro v hv ht
    unfold normalizeFeature
    rw [hv]
    dsimp only
    rw [if_pos ht]
    refine ⟨?_, ?_, rfl⟩
    · show lookupProp (setProp (setProp f.props "NAME_1" (canonicalOf v)) "name"
        (canonicalOf v)) "NAME_1" = some (canonicalOf v)
      rw [lookupProp_setProp_ne _ _ _ _ (by decide)]
      exact lookupProp_setProp_self _ _ _
    · exact lookupProp_setProp_self _ _ _
  · intro h
    unfold normalizeFeature
    rw [h]
  · intro w hw hf
    unfold normalizeFeature
    rw [hw]
    dsimp only
    rw [if_neg (by simp [hf])]
  · intro h1 h2
    unfold normalizeFeature
    rw [h1, h2]
    rfl

/-- Witness for C3: a feature named only by the verbose
Andaman-and-Nicobar string gets both canonical keys set to the alias,
and a feature carrying only st_nm passes through unmodified. -/
theorem normalize_names_precedence_witness :
    lookupProp (normalizeFeature
        ⟨[("name", PVal.str "Andaman and Nicobar Islands")], none⟩).props "NAME_1"
      = some (PVal.str "Andaman and Nicobar")
    ∧ normalizeFeature ⟨[("st_nm", PVal.str "Gujarat")], none⟩
      = ⟨[("st_nm", PVal.str "Gujarat")], none⟩ := by
  constructor
  · exact ((normalize_names_precedence
      ⟨[("name", PVal.str "Andaman and Nicobar Islands")], none⟩).1
      (PVal.str "Andaman and Nicobar Islands") (by decide) (by decide)).1
  · exact (normalize_names_precedence
      ⟨[("st_nm", PVal.str "Gujarat")], none⟩).2.2.2.1 (by decide) (by decide)

/-- Counterexample for C3 as stated: a feature whose only name key is
st_nm is claimed to have NAME_1 and name set from it, but
normalize_names leaves it unmodified and resolves no name at all. -/
theorem normalize_names_stnm_counterexample :
    normalizeFeature ⟨[("st_nm", PVal.str "Gujarat")], none⟩
      = ⟨[("st_nm", PVal.str "Gujarat")], none⟩
    ∧ lookupProp (normalizeFeature
        ⟨[("st_nm", PVal.str "Gujarat")], none⟩).props "NAME_1" ≠ some (PVal.str "Gujarat") := by
  exact ⟨by decide, by decide⟩

/-- Claim C4 (confirmed): the splice-mode overlay merge fails soft:
a fetch or parse error, or a fetched overlay with no features, leaves
the returned collection identical to the pre-merge collection, feature
count and every geometry included, and no error propagates. -/
theorem merge_pok_soft_fail (merged : List Feature) (msg : String) :
    merge_pok_into_jk (.error msg) merged = merged
    ∧ merge_pok_into_jk (.ok []) merged = merged := by
  constructor
  · rfl
  · simp [merge_pok_into_jk]

/-- Claim C1 (corrected): neither merge policy is idempotent. The
append-mode merge has no existence guard: a second application appends
the overlay-derived features again, growing the feature count by the
number of overlay features with truthy geometry. The splice-mode merge
keeps the feature count but appends the overlay's coordinate-sets into
the target's geometry again on every application. -/
theorem overlay_merges_not_idempotent (base pf : List Feature) :
    append_pok_merge (append_pok_merge base (.ok pf)) (.ok pf)
      = base ++ pf.filterMap appendPokFeature ++ pf.filterMap appendPokFeature
    ∧ (append_pok_merge (append_pok_merge base (.ok pf)) (.ok pf)).length
      = base.length + 2 * (pf.filterMap appendPokFeature).length
    ∧ (∀ i, firstIdx isJkFeature base = some i → pf ≠ [] →
      geomSets ((merge_pok_into_jk (.ok pf)
          (merge_pok_into_jk (.ok pf) base)).getD i emptyFeature).geometry
        = geomSets ((base.getD i emptyFeature).geometry)
            ++ collectSets pf ++ collectSets pf)
    ∧ (merge_pok_into_jk (.ok pf) (merge_pok_into_jk (.ok pf) base)).length
      = base.length := by
  refine ⟨rfl, ?_, ?_, ?_⟩
  · show (base ++ pf.filterMap appendPokFeature ++ pf.filterMap appendPokFeature).length = _
    simp [List.length_append]
    ring
  · intro i hi hpf
    have hi2 : firstIdx isJkFeature (merge_pok_into_jk (.ok pf) base) = some i := by
      rw [mergePok_firstIdx]
      exact hi
    rw [mergePok_sets pf _ i hi2 hpf, mergePok_sets pf base i hi hpf]
  · rw [mergePok_length, mergePok_length]

/-- Witness for C1 (amended): a concrete one-feature overlay spliced
twice into a one-feature J&K base duplicates the overlay's
coordinate-set in the target geometry. -/
theorem overlay_merges_not_idempotent_witness :
    geomSets ((merge_pok_into_jk
        (.ok [⟨[], some (.polygon [[[0, 0], [1, 0], [0, 1], [0, 0]]])⟩])
        (merge_pok_into_jk
          (.ok [⟨[], some (.polygon [[[0, 0], [1, 0], [0, 1], [0, 0]]])⟩])
          [⟨[("name", PVal.str "Jammu and Kashmir")],
            some (.polygon [[[5, 5], [6, 5], [5, 6], [5, 5]]])⟩])).getD 0
        emptyFeature).geometry
      = geomSets (([⟨[("name", PVal.str "Jammu and Kashmir")],
            some (.polygon [[[5, 5], [6, 5], [5, 6], [5, 5]]])⟩].getD 0
          emptyFeature :
          Feature).geometry)
        ++ collectSets [⟨[], some (.polygon [[[0, 0], [1, 0], [0, 1], [0, 0]]])⟩]
        ++ collectSets [⟨[], some (.polygon [[[0, 0], [1, 0], [0, 1], [0, 0]]])⟩] :=
  (overlay_merges_not_idempotent
    [⟨[("name", PVal.str "Jammu and Kashmir")],
      some (.polygon [[[5, 5], [6, 5], [5, 6], [5, 5]]])⟩]
    [⟨[], some (.polygon [[[0, 0], [1, 0], [0, 1], [0, 0]]])⟩]).2.2.1 0
    (by decide) (by decide)

/-- Counterexample for C1 as stated: with a concrete overlay, a second
append-mode application changes the feature count, and a second
splice-mode application changes the target's geometry. -/
theorem overlay_merges_idempotence_counterexample :
    (append_pok_merge (append_pok_merge []
        (.ok [⟨[], some (.polygon [[[0, 0], [1, 0], [0, 1], [0, 0]]])⟩]))
        (.ok [⟨[], some (.polygon [[[0, 0], [1, 0], [0, 1], [0, 0]]])⟩])).length
      ≠ (append_pok_merge []
        (.ok [⟨[], some (.polygon [[[0, 0], [1, 0], [0, 1], [0, 0]]])⟩])).length
    ∧ merge_pok_into_jk
        (.ok [⟨[], some (.polygon [[[0, 0], [1, 0], [0, 1], [0, 0]]])⟩])
        (merge_pok_into_jk
          (.ok [⟨[], some (.polygon [[[0, 0], [1, 0], [0, 1], [0, 0]]])⟩])
          [⟨[("name", PVal.str "Jammu and Kashmir")],
            some (.polygon [[[5, 5], [6, 5], [5, 6], [5, 5]]])⟩])
      ≠ merge_pok_into_jk
        (.ok [⟨[], some (.polygon [[[0, 0], [1, 0], [0, 1], [0, 0]]])⟩])
        [⟨[("name", PVal.str "Jammu and Kashmir")],
          some (.polygon [[[5, 5], [6, 5], [5, 6], [5, 5]]])⟩] := by
  exact ⟨by decide, by decide⟩

/-- Claim C8 (confirmed): the splice-mode merge locates the single
target feature by the ordered variant list ("Jammu and Kashmir",
"Jammu & Kashmir"); the first feature named by either variant has the
overlay's polygon coordinate-sets appended to its existing geometry in
place, and when no feature matches any variant the merge is a no-op on
the collection. -/
theorem splice_target_resolution (base pf : List Feature) :
    (∀ i, firstIdx isJkFeature base = some i → pf ≠ [] →
      geomSets ((merge_pok_into_jk (.ok pf) base).getD i emptyFeature).geometry
        = geomSets ((base.getD i emptyFeature).geometry) ++ collectSets pf)
    ∧ (firstIdx isJkFeature base = none → merge_pok_into_jk (.ok pf) base = base)
    ∧ (∀ m ∈ base,
        getNameProp m = PVal.str "Jammu and Kashmir"
          ∨ getNameProp m = PVal.str "Jammu & Kashmir" →
        firstIdx isJkFeature base ≠ none) := by
  refine ⟨?_, ?_, ?_⟩
  · intro i hi hpf
    exact mergePok_sets pf base i hi hpf
  · intro h
    unfold merge_pok_into_jk
    dsimp only
    by_cases hpf : pf = []
    · rw [if_pos hpf]
    · rw [if_neg hpf, h]
  · intro m hm hv h
    have := (firstIdx_eq_none isJkFeature base).mp h m hm
    unfold isJkFeature at this
    rcases hv with hv | hv <;> simp [hv] at this

/-- Witness for C8: splicing a concrete overlay into a base whose
target carries the ampersand variant extends that target's geometry by
the overlay's coordinate-set. -/
theorem splice_target_resolution_witness :
    geomSets ((merge_pok_into_jk
        (.ok [⟨[], some (.polygon [[[0, 0], [1, 0], [0, 1], [0, 0]]])⟩])
        [⟨[("name", PVal.str "Jammu & Kashmir")],
          some (.polygon [[[5, 5], [6, 5], [5, 6], [5, 5]]])⟩]).getD 0
        emptyFeature).geometry
      = geomSets (([⟨[("name", PVal.str "Jammu & Kashmir")],
            some (.polygon [[[5, 5], [6, 5], [5, 6], [5, 5]]])⟩].getD 0
          emptyFeature :
          Feature).geometry)
        ++ collectSets [⟨[], some (.polygon [[[0, 0], [1, 0], [0, 1], [0, 0]]])⟩] :=
  (splice_target_resolution
    [⟨[("name", PVal.str "Jammu & Kashmir")],
      some (.polygon [[[5, 5], [6, 5], [5, 6], [5, 5]]])⟩]
    [⟨[], some (.polygon [[[0, 0], [1, 0], [0, 1], [0, 0]]])⟩]).1 0
    (by decide) (by decide)

/-- Claim C10 (confirmed): the splice-mode merge is frame-bounded: for
every base collection and overlay fetch outcome it preserves the
collection's length and order, every feature's properties, and every
feature other than the first variant match entirely. -/
theorem splice_frame (fetch : Except String (List Feature))
    (merged : List Feature) (j : Nat) :
    (merge_pok_into_jk fetch merged).length = merged.length
    ∧ ((merge_pok_into_jk fetch merged).getD j emptyFeature).props
      = (merged.getD j emptyFeature).props
    ∧ (firstIdx isJkFeature merged ≠ some j →
      (merge_pok_into_jk fetch merged).getD j emptyFeature
        = merged.getD j emptyFeature) := by
  refine ⟨mergePok_length fetch merged, ?_, ?_⟩
  · unfold merge_pok_into_jk
    rcases fetch with e | pf
    · rfl
    · dsimp only
      by_cases hpf : pf = []
      · rw [if_pos hpf]
      · rw [if_neg hpf]
        rcases h : firstIdx isJkFeature merged with _ | i
        · rfl
        · show ((merged.set i
              (spliceJk (merged.getD i emptyFeature) pf)).getD j
              emptyFeature).props = _
          by_cases hij : i = j
          · subst hij
            rw [getD_set_self _ _ _ _ (firstIdx_lt _ _ _ h)]
            exact spliceJk_props _ _
          · rw [getD_set_ne _ _ _ _ _ hij]
  · intro hj
    unfold merge_pok_into_jk
    rcases fetch with e | pf
    · rfl
    · dsimp only
      by_cases hpf : pf = []
      · rw [if_pos hpf]
      · rw [if_neg hpf]
        rcases h : firstIdx isJkFeature merged with _ | i
        · rfl
        · show (merged.set i
              (spliceJk (merged.getD i emptyFeature) pf)).getD j emptyFeature = _
          have hij : i ≠ j := by
            intro hh
            exact hj (hh ▸ h)
          rw [getD_set_ne _ _ _ _ _ hij]

/-- Witness for C10: with a concrete two-feature base whose second
feature is J&K, splicing leaves the first feature untouched. -/
theorem splice_frame_witness :
    (merge_pok_into_jk
        (.ok [⟨[], some (.polygon [[[0, 0], [1, 0], [0, 1], [0, 0]]])⟩])
        [⟨[("name", PVal.str "Kerala")], some (.polygon [[[9, 9]]])⟩,
         ⟨[("name", PVal.str "Jammu and Kashmir")],
           some (.polygon [[[5, 5], [6, 5], [5, 6], [5, 5]]])⟩]).getD 0 emptyFeature
      = ([⟨[("name", PVal.str "Kerala")], some (.polygon [[[9, 9]]])⟩,
          ⟨[("name", PVal.str "Jammu and Kashmir")],
            some (.polygon [[[5, 5], [6, 5], [5, 6], [5, 5]]])⟩].getD 0 emptyFeature :
          Feature) :=
  (splice_frame
    (.ok [⟨[], some (.polygon [[[0, 0], [1, 0], [0, 1], [0, 0]]])⟩])
    [⟨[("name", PVal.str "Kerala")], some (.polygon [[[9, 9]]])⟩,
     ⟨[("name", PVal.str "Jammu and Kashmir")],
       some (.polygon [[[5, 5], [6, 5], [5, 6], [5, 5]]])⟩] 0).2.2 (by decide)

/-- Claim C2 (corrected): the replace step tries the primary remote
source and then the bundled local file, in that order; there is no
secondary remote source. The first source yielding non-empty geometry
wins; the result removes every existing feature whose name matches the
target and appends one freshly built feature carrying that geometry
under all three canonical keys. When every source fails the collection
is returned unchanged. -/
theorem replace_ladakh_chain (merged : List Feature)
    (lf : Option (Except String (List Feature))) :
    (∀ features, ladakhRemoteCoords features ≠ [] →
      replace_ladakh_with_full (.ok features) lf merged
        = removeLadakhAndAppend merged (ladakhRemoteCoords features))
    ∧ (∀ e, replace_ladakh_with_full (.error e) lf merged
        = fallback_ladakh_local lf merged)
    ∧ (∀ features, ladakhRemoteCoords features = [] →
      replace_ladakh_with_full (.ok features) lf merged
        = fallback_ladakh_local lf merged)
    ∧ (∀ lfs, lfs ≠ [] → collectSets lfs ≠ [] →
      fallback_ladakh_local (some (.ok lfs)) merged
        = removeLadakhAndAppend merged (collectSets lfs))
    ∧ fallback_ladakh_local none merged = merged
    ∧ (∀ e, fallback_ladakh_local (some (.error e)) merged = merged)
    ∧ fallback_ladakh_local (some (.ok [])) merged = merged
    ∧ (∀ cs m, m ∈ removeLadakhAndAppend merged cs ↔
      ((m ∈ merged ∧ lookupProp m.props "name" ≠ some (PVal.str "Ladakh"))
        ∨ m = ladakhFeature cs))
    ∧ (∀ cs, cs ≠ [] →
      geomSets (ladakhFeature cs).geometry = cs
        ∧ (ladakhFeature cs).props = stateProps (PVal.str "Ladakh")) := by
  refine ⟨?_, fun e => rfl, ?_, ?_, rfl, fun e => rfl, rfl, ?_, ?_⟩
  · intro features h
    unfold replace_ladakh_with_full
    dsimp only
    rw [if_neg h]
  · intro features h
    unfold replace_ladakh_with_full
    dsimp only
    rw [if_pos h]
  · intro lfs h1 h2
    unfold fallback_ladakh_local
    dsimp only
    rw [if_neg h1, if_neg h2]
  · intro cs m
    unfold removeLadakhAndAppend
    rw [List.mem_append, List.mem_filter, List.mem_singleton]
    simp only [decide_not, Bool.not_eq_true', decide_eq_false_iff_not]
  · intro cs h
    exact ⟨geomSets_mkGeom cs h, rfl⟩

/-- Witness for C2 (amended): with the primary remote failing and the
bundled local file supplying a polygon, the replace step rebuilds
Ladakh from the local geometry. -/
theorem replace_ladakh_chain_witness :
    fallback_ladakh_local
        (some (.ok [⟨[], some (.polygon [[[3, 3], [4, 3], [3, 4], [3, 3]]])⟩])) []
      = removeLadakhAndAppend []
        (collectSets [⟨[], some (.polygon [[[3, 3], [4, 3], [3, 4], [3, 3]]])⟩]) :=
  (replace_ladakh_chain []
    (some (.ok [⟨[], some (.polygon [[[3, 3], [4, 3], [3, 4], [3, 3]]])⟩]))).2.2.2.1
    [⟨[], some (.polygon [[[3, 3], [4, 3], [3, 4], [3, 3]]])⟩]
    (by decide) (by decide)

/-- Counterexample for C2 as stated: a three-source chain following
the claim's order (primary remote, then secondary remote, then local
file) disagrees with the source's replace step at a concrete input
where the primary fails and the secondary would succeed — the code
consults the bundled local file next, not a secondary remote. -/
theorem replace_ladakh_order_counterexample :
    replaceLadakhClaimOrder (.error "down")
        (.ok [⟨[("district", PVal.str "Leh Ladakh")],
          some (.polygon [[[1, 1], [2, 1], [1, 2], [1, 1]]])⟩])
        (some (.ok [⟨[], some (.polygon [[[3, 3], [4, 3], [3, 4], [3, 3]]])⟩])) []
      ≠ replace_ladakh_with_full (.error "down")
        (some (.ok [⟨[], some (.polygon [[[3, 3], [4, 3], [3, 4], [3, 3]]])⟩])) [] := by
  decide

/-- Claim C5 (corrected): the source selector tries the local file
before the remote provider and returns the first non-empty
FeatureCollection as-is, without normalizing or aggregating it in the
selector; when the first attempt fails or is empty a second remote
attempt decides the outcome: a raised fetch surfaces as a 502 carrying
the last underlying error, and an empty final result surfaces as a 404
carrying remediation guidance. -/
theorem selector_fallback_chain (remoteA remoteB : Except String (List Feature)) :
    (∀ d, d ≠ [] →
      get_india_states_geojson (some (.ok d)) remoteA remoteB = .ok d)
    ∧ (∀ d, d ≠ [] →
      get_india_states_geojson none (.ok d) remoteB = .ok d)
    ∧ (∀ e, get_india_states_geojson (some (.error e)) remoteA remoteB
        = secondAttempt remoteB)
    ∧ get_india_states_geojson (some (.ok [])) remoteA remoteB
        = secondAttempt remoteB
    ∧ (∀ e, get_india_states_geojson none (.error e) remoteB
        = secondAttempt remoteB)
    ∧ get_india_states_geojson none (.ok []) remoteB = secondAttempt remoteB
    ∧ (∀ e, secondAttempt (.error e)
        = .error (.http502 ("India GeoJSON unavailable: " ++ e)))
    ∧ secondAttempt (.ok [])
        = .error (.http404
            "India GeoJSON not found. Run: py scripts/download_india_geojson.py")
    ∧ (∀ d, d ≠ [] → secondAttempt (.ok d) = .ok d) := by
  refine ⟨?_, ?_, fun e => rfl, rfl, fun e => rfl, rfl, fun e => rfl, rfl, ?_⟩
  · intro d h
    unfold get_india_states_geojson
    dsimp only
    rw [if_pos h]
  · intro d h
    unfold get_india_states_geojson
    dsimp only
    rw [if_pos h]
  · intro d h
    unfold secondAttempt
    dsimp only
    rw [if_pos h]

/-- Witness for C5 (amended): a non-empty local file wins over a
working remote and is returned as-is; with the local file failing and
the second remote raising, the 502 carries the fetch error. -/
theorem selector_fallback_chain_witness :
    get_india_states_geojson
        (some (.ok [⟨[("NAME_1", PVal.str "Goa")], some (.polygon [[[1, 1]]])⟩]))
        (.ok [⟨[("NAME_1", PVal.str "Kerala")], none⟩]) (.error "down")
      = .ok [⟨[("NAME_1", PVal.str "Goa")], some (.polygon [[[1, 1]]])⟩] :=
  (selector_fallback_chain (.ok [⟨[("NAME_1", PVal.str "Kerala")], none⟩])
    (.error "down")).1
    [⟨[("NAME_1", PVal.str "Goa")], some (.polygon [[[1, 1]]])⟩] (by decide)

/-- Counterexample for C5 as stated: a local file carrying the verbose
Andaman-and-Nicobar name is returned by the selector exactly as
stored, although the alias table maps that name to a different
canonical string — the selector performs no normalization. -/
theorem selector_no_normalize_counterexample :
    get_india_states_geojson
        (some (.ok [⟨[("NAME_1", PVal.str "Andaman and Nicobar Islands")],
          some (.polygon [[[7, 7]]])⟩]))
        (.error "down") (.error "down")
      = .ok [⟨[("NAME_1", PVal.str "Andaman and Nicobar Islands")],
          some (.polygon [[[7, 7]]])⟩]
    ∧ aliasLookup alias_map "Andaman and Nicobar Islands"
      ≠ "Andaman and Nicobar Islands" := by
  exact ⟨by decide, by decide⟩

/-- Claim C7 (corrected): unionCoordinates collects every polygon
coordinate-set into one flat sequence and returns a Polygon on exactly
one set, a MultiPolygon on more than one, and an empty result on none,
in which case the caller emits no feature for the group. A missing or
falsy geometry and an unrecognized type string are skipped silently;
a geometry typed Polygon whose coordinates key is missing is NOT
skipped: it contributes the default empty coordinate-set, while a
MultiPolygon with missing coordinates contributes nothing. -/
theorem unionCoordinates_classification (gs : List (Option Geometry)) :
    (unionCoordinates gs = none ↔ gs.flatMap geomSets = [])
    ∧ (∀ c, gs.flatMap geomSets = [c] →
      unionCoordinates gs = some (.polygon c))
    ∧ (∀ c cs, gs.flatMap geomSets = c :: cs → cs ≠ [] →
      unionCoordinates gs = some (.multiPolygon (c :: cs)))
    ∧ (∀ t rest, (some (Geometry.otherType t) :: rest).flatMap geomSets
      = rest.flatMap geomSets)
    ∧ (∀ rest, ((none : Option Geometry) :: rest).flatMap geomSets
      = rest.flatMap geomSets)
    ∧ (∀ rest, (some Geometry.polygonNoCoords :: rest).flatMap geomSets
      = [] :: rest.flatMap geomSets)
    ∧ (∀ rest, (some Geometry.multiPolygonNoCoords :: rest).flatMap geomSets
      = rest.flatMap geomSets)
    ∧ (∀ k fs2, mergeGroup k fs2 = none ↔ collectSets fs2 = []) := by
  refine ⟨?_, ?_, ?_, fun t rest => rfl, fun rest => rfl, fun rest => rfl,
    fun rest => rfl, ?_⟩
  · simp only [unionCoordinates]
    by_cases h : gs.flatMap geomSets = []
    · simp [h]
    · simp [h]
  · intro c hc
    simp only [unionCoordinates]
    rw [hc]
    simp [mkGeom]
  · intro c cs hc hne
    simp only [unionCoordinates]
    rw [hc]
    have h2 : 1 < (c :: cs).length := by
      rcases cs with _ | ⟨x, xs⟩
      · exact absurd rfl hne
      · simp only [List.length_cons]
        omega
    simp [mkGeom, h2]
    exact hne
  · intro k fs2
    simp only [mergeGroup]
    by_cases h : collectSets fs2 = []
    · simp [h]
    · simp [h]

/-- Witness for C7 (amended): one coordinate-set yields a Polygon,
three across two geometries yield a MultiPolygon. -/
theorem unionCoordinates_classification_witness :
    unionCoordinates [some (Geometry.polygon [[[0, 0]]])]
      = some (Geometry.polygon [[[0, 0]]])
    ∧ unionCoordinates [some (Geometry.polygon [[[0, 0]]]),
        some (Geometry.multiPolygon [[[[1, 1]]], [[[2, 2]]]])]
      = some (Geometry.multiPolygon [[[[0, 0]]], [[[1, 1]]], [[[2, 2]]]]) := by
  constructor
  · exact (unionCoordinates_classification _).2.1 _ (by decide)
  · exact (unionCoordinates_classification _).2.2.1 _ _ (by decide) (by decide)

/-- Counterexample for C7 as stated: a geometry dict typed Polygon
with a missing coordinates key is claimed to be skipped silently, but
unionCoordinates over just that geometry returns a Polygon with an
empty coordinate-set instead of the empty result. -/
theorem unionCoordinates_degenerate_counterexample :
    unionCoordinates [some Geometry.polygonNoCoords]
      = some (Geometry.polygon [])
    ∧ unionCoordinates [some Geometry.polygonNoCoords] ≠ none := by
  exact ⟨by decide, by decide⟩

/-- flatMap after map fuses into one flatMap. -/
theorem flatMap_map {α β γ : Type} (f : α → β) (F : β → List γ) :
    ∀ (l : List α), (l.map f).flatMap F = l.flatMap (fun a => F (f a))
  | [] => rfl
  | a :: l => by
    rw [List.map_cons, List.flatMap_cons, List.flatMap_cons, flatMap_map f F l]

/-- Claim C6 (confirmed): for district features that all resolve a
truthy state key and all contribute at least one coordinate-set, the
aggregator emits exactly one feature per distinct post-alias state
name, named by the group key under all three canonical keys, in
first-appearance order of the keys, and the concatenation of output
coordinate-sets is a permutation of the concatenation of input
coordinate-sets. -/
theorem aggregate_states_complete (fs : List Feature)
    (hname : ∀ f ∈ fs, truthy (resolveStNm f.props) = true)
    (hgeom : ∀ f ∈ fs, geomSets f.geometry ≠ []) :
    (aggregate_states fs).map getNameProp = dedupKeys (fs.map stateKey)
    ∧ (aggregate_states fs).length = (dedupKeys (fs.map stateKey)).length
    ∧ (dedupKeys (fs.map stateKey)).Nodup
    ∧ (∀ k, k ∈ dedupKeys (fs.map stateKey) ↔ k ∈ fs.map stateKey)
    ∧ (∀ g ∈ aggregate_states fs, g.props = stateProps (getNameProp g))
    ∧ ((aggregate_states fs).flatMap (fun g => geomSets g.geometry)).Perm
        (fs.flatMap (fun f => geomSets f.geometry)) := by
  have hne : ∀ g ∈ groupByState fs, g.2 ≠ [] :=
    foldl_groupStep_ne_nil fs [] (by intro g hg; simp at hg)
  have hmem : ∀ g ∈ groupByState fs, ∀ x ∈ g.2, geomSets x.geometry ≠ [] :=
    foldl_groupStep_members _ fs [] hgeom (by intro g hg; simp at hg)
  have hcs : ∀ g ∈ groupByState fs, collectSets g.2 ≠ [] := by
    intro g hg
    obtain ⟨x, hx⟩ := List.exists_mem_of_ne_nil _ (hne g hg)
    exact collectSets_ne_nil hx (hmem g hg x hx)
  have hF : ∀ g ∈ groupByState fs, mergeGroup g.1 g.2
      = some (⟨stateProps g.1, some (mkGeom (collectSets g.2))⟩ : Feature) := by
    intro g hg
    simp only [mergeGroup]
    rw [if_neg (hcs g hg)]
  have hagg : aggregate_states fs
      = (groupByState fs).map
        (fun g => (⟨stateProps g.1, some (mkGeom (collectSets g.2))⟩ : Feature)) := by
    unfold aggregate_states
    exact filterMap_eq_map_of_some _ _ _ hF
  have hkeys : (groupByState fs).map (fun g => g.1)
      = dedupKeys (fs.map stateKey) := by
    unfold groupByState dedupKeys
    rw [foldl_groupStep_keys fs [] hname]
    rfl
  have hnames : (aggregate_states fs).map getNameProp
      = dedupKeys (fs.map stateKey) := by
    rw [hagg, List.map_map]
    rw [show (getNameProp ∘ fun g : PVal × List Feature =>
        (⟨stateProps g.1, some (mkGeom (collectSets g.2))⟩ : Feature))
      = fun g : PVal × List Feature => g.1
      from funext fun g => getNameProp_stateProps g.1 _]
    exact hkeys
  refine ⟨hnames, ?_, foldl_dedupStep_nodup _ [] List.nodup_nil, ?_, ?_, ?_⟩
  · have hlen := congrArg List.length hnames
    simpa using hlen
  · intro k
    rw [show dedupKeys (fs.map stateKey)
      = (fs.map stateKey).foldl dedupStep [] from rfl]
    rw [mem_foldl_dedupStep]
    simp
  · intro g hg
    rw [hagg] at hg
    obtain ⟨g0, hg0, rfl⟩ := List.mem_map.mp hg
    rw [getNameProp_stateProps]
  · rw [hagg, flatMap_map]
    have h1 : (groupByState fs).flatMap
        (fun g => geomSets ((⟨stateProps g.1,
          some (mkGeom (collectSets g.2))⟩ : Feature)).geometry)
        = (groupByState fs).flatMap
          (fun g => g.2.flatMap (fun f => geomSets f.geometry)) :=
      flatMap_congr_mem _ _ _ (fun g hg => geomSets_mkGeom _ (hcs g hg))
    rw [h1, ← flatMap_flatG]
    have hperm : (flatG (groupByState fs)).Perm fs := by
      have h := foldl_groupStep_flat_perm fs [] hname
      simpa [flatG] using h
    exact hperm.flatMap_right _

/-- Witness for C6: three concrete district features over two states
aggregate to the two group keys in first-appearance order. -/
theorem aggregate_states_complete_witness :
    (aggregate_states
        [⟨[("st_nm", PVal.str "Kerala")], some (.polygon [[[0, 0]]])⟩,
         ⟨[("st_nm", PVal.str "Goa")], some (.polygon [[[1, 1]]])⟩,
         ⟨[("st_nm", PVal.str "Kerala")],
           some (.multiPolygon [[[[2, 2]]], [[[3, 3]]]])⟩]).map getNameProp
      = dedupKeys
        ([⟨[("st_nm", PVal.str "Kerala")], some (.polygon [[[0, 0]]])⟩,
          ⟨[("st_nm", PVal.str "Goa")], some (.polygon [[[1, 1]]])⟩,
          ⟨[("st_nm", PVal.str "Kerala")],
            some (.multiPolygon [[[[2, 2]]], [[[3, 3]]]])⟩].map stateKey) :=
  (aggregate_states_complete _ (by decide) (by decide)).1

/-- Removing every feature named Ladakh and appending one fresh
Ladakh feature preserves name uniqueness. -/
theorem removeLadakh_names_nodup (merged : List Feature) (cs : List PolyCoords)
    (h : (merged.map getNameProp).Nodup) :
    ((removeLadakhAndAppend merged cs).map getNameProp).Nodup := by
  unfold removeLadakhAndAppend
  rw [List.map_append]
  refine List.Nodup.append
    (List.Nodup.sublist ((List.filter_sublist merged).map getNameProp) h)
    (by simp) ?_
  intro a ha hb
  simp only [List.map_cons, List.map_nil, List.mem_singleton] at hb
  obtain ⟨m, hm, rfl⟩ := List.mem_map.mp ha
  have hpred := (List.mem_filter.mp hm).2
  rw [decide_eq_true_eq] at hpred
  have hlad : getNameProp (ladakhFeature cs) = PVal.str "Ladakh" := rfl
  rw [hlad] at hb
  unfold getNameProp at hb
  rcases hlk : lookupProp m.props "name" with _ | v
  · rw [hlk] at hb
    exact absurd hb (by decide)
  · rw [hlk] at hb
    simp only [Option.getD_some] at hb
    exact hpred (hlk.trans (by rw [hb]))

/-- The whole replace step preserves name uniqueness. -/
theorem replace_names_nodup (remote : Except String (List Feature))
    (lf : Option (Except String (List Feature))) (merged : List Feature)
    (h : (merged.map getNameProp).Nodup) :
    ((replace_ladakh_with_full remote lf merged).map getNameProp).Nodup := by
  have hfb : ∀ (lf2 : Option (Except String (List Feature))),
      ((fallback_ladakh_local lf2 merged).map getNameProp).Nodup := by
    intro lf2
    unfold fallback_ladakh_local
    rcases lf2 with _ | r
    · exact h
    · rcases r with e | lfs
      · exact h
      · dsimp only
        by_cases h1 : lfs = []
        · rw [if_pos h1]
          exact h
        · rw [if_neg h1]
          by_cases h2 : collectSets lfs = []
          · rw [if_pos h2]
            exact h
          · rw [if_neg h2]
            exact removeLadakh_names_nodup merged _ h
  unfold replace_ladakh_with_full
  rcases remote with e | features
  · exact hfb lf
  · dsimp only
    by_cases hcs : ladakhRemoteCoords features = []
    · rw [if_pos hcs]
      exact hfb lf
    · rw [if_neg hcs]
      exact removeLadakh_names_nodup merged _ h

/-- Claim C9 (confirmed): after full assembly (aggregation, splice,
replace), no two features of the returned collection share the same
canonical name: group keys are pairwise distinct, the splice changes
no name, and the replace removes every Ladakh feature before appending
exactly one. -/
theorem assembled_names_nodup (base : List Feature)
    (pok ladakhRemote : Except String (List Feature))
    (ladakhLocal : Option (Except String (List Feature))) :
    ((option_b_features base pok ladakhRemote ladakhLocal).map
      getNameProp).Nodup := by
  have h1 : ((aggregate_states base).map getNameProp).Nodup := by
    have hsub : ((aggregate_states base).map getNameProp).Sublist
        ((groupByState base).map (fun g => g.1)) := by
      unfold aggregate_states
      refine map_filterMap_sublist _ getNameProp (fun g => g.1) ?_ (groupByState base)
      intro a y hy
      simp only [mergeGroup] at hy
      by_cases hc : collectSets a.2 = []
      · rw [if_pos hc] at hy
        cases hy
      · rw [if_neg hc] at hy
        injection hy with hy
        rw [← hy]
        exact getNameProp_stateProps _ _
    exact List.Nodup.sublist hsub (groupByState_keys_nodup base)
  have h2 : ((merge_pok_into_jk pok (aggregate_states base)).map
      getNameProp).Nodup := by
    rw [mergePok_names]
    exact h1
  unfold option_b_features
  exact replace_names_nodup _ _ _ h2

end Geo
